import Mathlib

/-!
Shallow embedding of `notion-db-sync.py` (a one-file script that copies
eligible pages from a master Notion database to a slave database) together
with proofs about its field extraction, encoding, validation, pagination
and per-record error handling.
-/

set_option maxHeartbeats 1000000

namespace NotionDbSync

/-- A Python value as it flows through the script: `None`, a string, a
number (modelled as an integer; the script does no arithmetic), a boolean,
or a list of option-name strings (the only lists the script handles). -/
inductive Value where
  | none
  | str (s : String)
  | num (n : Int)
  | bool (b : Bool)
  | list (xs : List String)
deriving DecidableEq, Repr

/-- Payload of a Notion formula property: which result key the formula
object carries (`string` / `number` / `boolean` / `date`), or none of
them.  A `date` result is `null` or an object with a `start` value. -/
inductive FormulaData where
  | fstring (v : Value)
  | fnumber (v : Value)
  | fboolean (v : Value)
  | fdate (d : Option Value)
  | fempty
deriving DecidableEq, Repr

/-- A Notion property object, as read from a source page or as built by
`create_property_object`.  The constructor is the property's `"type"`
tag; the argument is the payload stored under that tag.  `other` stands
for any tag the script does not recognize. -/
inductive NProp where
  | title (segments : List String)
  | rich_text (segments : List String)
  | number (v : Value)
  | select (name : Option Value)
  | multi_select (names : List String)
  | date (start : Option Value)
  | url (v : Value)
  | email (v : Value)
  | phone_number (v : Value)
  | checkbox (v : Value)
  | formula (f : FormulaData)
  | other (tag : String)
deriving DecidableEq, Repr

/-- A Notion page: an id and its property mapping (insertion-ordered,
as a Python dict). -/
structure Page where
  id : String
  properties : List (String × NProp)
deriving DecidableEq, Repr

/-- Python truthiness for the values of this script
(`None`, `""`, `0`, `False` and `[]` are falsy). -/
def pyTruthy : Value → Bool
  | .none => false
  | .str s => decide (s ≠ "")
  | .num n => decide (n ≠ 0)
  | .bool b => b
  | .list xs => !xs.isEmpty

/-- Python `str()` restricted to this script's values.  Exact on strings,
booleans, `None` and integers; the rendering of lists is approximate
(no claim depends on it). -/
def pyStr : Value → String
  | .none => "None"
  | .str s => s
  | .num n => toString n
  | .bool b => if b then "True" else "False"
  | .list xs => String.intercalate ", " xs

/-- The tag dispatch of `extract_property_value` (lines 66-110): reads the
typed payload of one property object.  `title`/`rich_text` join all
segment contents (an empty segment list gives `""`); an empty `select`
or `date` gives `None`; `multi_select` gives the list of names; a
`formula` is inspected for its `string`/`number`/`boolean`/`date` key in
that order; an unrecognized tag gives `None`. -/
def extractValue : NProp → Value
  | .title segments => if segments.isEmpty then .str "" else .str (String.join segments)
  | .rich_text segments => if segments.isEmpty then .str "" else .str (String.join segments)
  | .number v => v
  | .select name =>
      match name with
      | Option.some v => v
      | Option.none => .none
  | .multi_select names => .list names
  | .date start =>
      match start with
      | Option.some v => v
      | Option.none => .none
  | .url v => v
  | .email v => v
  | .phone_number v => v
  | .checkbox v => v
  | .formula fd =>
      match fd with
      | .fstring v => v
      | .fnumber v => v
      | .fboolean v => v
      | .fdate d =>
          match d with
          | Option.some v => v
          | Option.none => .none
      | .fempty => .none
  | .other _ => .none

/-- `extract_property_value(page, property_name)` (lines 60-110): `None`
when the name is absent from the page's property mapping, otherwise the
typed payload of the property. -/
def extract_property_value (page : Page) (property_name : String) : Value :=
  match page.properties.lookup property_name with
  | Option.none => .none
  | Option.some p => extractValue p

/-- Outcome of `create_property_object`: a property object, a Python
`None` return (the unhandled-tag fallthrough, lines 131-132), or a raised
exception (iterating a non-iterable in the `multi_select` branch). -/
inductive EncResult where
  | obj (p : NProp)
  | retNone
  | raised
deriving DecidableEq, Repr

/-- `create_property_object(property_name, value, property_type)`
(lines 113-132): dispatches on the destination type tag.  `title` and
`rich_text` wrap `str(value)` (or `""` when falsy) as one text segment;
`number` passes the value through; `select`/`date` wrap a truthy value or
encode an explicit unset; `multi_select` builds one entry per element of
the value (iterating a string yields its characters; iterating a number
or boolean raises `TypeError`); `url` passes a truthy value or `None`;
`checkbox` defaults `None` to `False`; any other tag returns `None`.
The `property_name` argument is unused, as in the source. -/
def create_property_object (property_name : String) (value : Value) (property_type : String) : EncResult :=
  if property_type = "title" then
    .obj (.title [if pyTruthy value then pyStr value else ""])
  else if property_type = "rich_text" then
    .obj (.rich_text [if pyTruthy value then pyStr value else ""])
  else if property_type = "number" then
    .obj (.number (if value = .none then .none else value))
  else if property_type = "select" then
    if pyTruthy value then .obj (.select (Option.some value)) else .obj (.select Option.none)
  else if property_type = "multi_select" then
    if pyTruthy value then
      match value with
      | .list xs => .obj (.multi_select xs)
      | .str s => .obj (.multi_select (s.toList.map (fun c => String.singleton c)))
      | _ => .raised
    else .obj (.multi_select [])
  else if property_type = "date" then
    if pyTruthy value then .obj (.date (Option.some value)) else .obj (.date Option.none)
  else if property_type = "url" then
    .obj (.url (if pyTruthy value then value else .none))
  else if property_type = "checkbox" then
    .obj (.checkbox (if value = .none then .bool false else value))
  else
    .retNone

/-- The destination type tags `create_property_object` handles
explicitly (every other tag falls through to the `None` return). -/
def handledTag (t : String) : Bool :=
  t == "title" || t == "rich_text" || t == "number" || t == "select" ||
  t == "multi_select" || t == "date" || t == "url" || t == "checkbox"

/-- The hard-coded `properties_to_sync` list of `sync_page`
(lines 143-158): the required field names, in order. -/
def properties_to_sync : List String :=
  ["Name", "Impressions", "Likes", "Bookmarks", "Retweets", "Comments", "CTR",
   "URL", "Author", "Handle", "Date", "Retention", "Engagement Rate", "Niche"]

/-- The missing-or-empty test of `sync_page` (line 170):
`value is None or value == "" or (isinstance(value, list) and len(value) == 0)`. -/
def isMissingVal : Value → Bool
  | .none => true
  | .str s => decide (s = "")
  | .list xs => xs.isEmpty
  | _ => false

/-- How `sync_page` can raise: the `ValueError` listing the missing
properties (line 182), or a `TypeError` escaping from
`create_property_object` (iterating a non-iterable). -/
inductive SyncErr where
  | valueError (missing : List String)
  | typeError
deriving DecidableEq, Repr

/-- The per-property loop of `sync_page` (lines 164-178).  Scans the
remaining names of `properties_to_sync`, accumulating `new_properties`
(note: a Python-`None` encoder result is still stored under the name)
and `missing_properties`; an exception from `create_property_object`
aborts the scan. -/
def syncScan (page : Page) (property_types : List (String × String)) :
    List String → List (String × Option NProp) → List String →
    Except SyncErr (List (String × Option NProp) × List String)
  | [], new_properties, missing_properties => .ok (new_properties, missing_properties)
  | prop_name :: rest, new_properties, missing_properties =>
    match page.properties.lookup prop_name with
    | Option.none =>
        syncScan page property_types rest new_properties (missing_properties ++ [prop_name])
    | Option.some _ =>
        let value := extract_property_value page prop_name
        if isMissingVal value then
          syncScan page property_types rest new_properties (missing_properties ++ [prop_name])
        else if prop_name = "Name" ∧ property_types.lookup "Name" = Option.some "title" then
          match create_property_object "Name" value "title" with
          | .obj p =>
              syncScan page property_types rest (new_properties ++ [("Name", Option.some p)]) missing_properties
          | .retNone =>
              syncScan page property_types rest (new_properties ++ [("Name", Option.none)]) missing_properties
          | .raised => .error .typeError
        else
          match property_types.lookup prop_name with
          | Option.some t =>
              match create_property_object prop_name value t with
              | .obj p =>
                  syncScan page property_types rest (new_properties ++ [(prop_name, Option.some p)]) missing_properties
              | .retNone =>
                  syncScan page property_types rest (new_properties ++ [(prop_name, Option.none)]) missing_properties
              | .raised => .error .typeError
          | Option.none =>
              syncScan page property_types rest new_properties missing_properties

/-- `sync_page(notion, master_page, slave_db_id, property_types)`
(lines 141-187) up to the point of the `pages.create` call: either the
raised error, or the `new_properties` mapping that would be submitted as
the new slave page.  The `ValueError` is raised after the scan when any
required property was missing or empty (lines 180-182). -/
def sync_page (master_page : Page) (property_types : List (String × String)) :
    Except SyncErr (List (String × Option NProp)) :=
  match syncScan master_page property_types properties_to_sync [] [] with
  | .error e => .error e
  | .ok (new_properties, missing_properties) =>
      if missing_properties.isEmpty then .ok new_properties
      else .error (.valueError missing_properties)

/-- One required field passes the missing-or-empty check of `sync_page`
(lines 165-171): the name is present in the page's property mapping and
its extracted value is not `None`, `""` or `[]`. -/
def fieldValid (page : Page) (prop_name : String) : Bool :=
  (page.properties.lookup prop_name).isSome &&
    !(isMissingVal (extract_property_value page prop_name))

/-- The set (in `properties_to_sync` order) of required names that are
missing from the page or extract to an empty value — what the
`ValueError` diagnostic of `sync_page` is specified to report. -/
def collectMissing (page : Page) : List String :=
  properties_to_sync.filter (fun n => !(fieldValid page n))

/-- The property payload written by `update_sync_status` (line 198):
`{"Sync Status": {"select": {"name": status}}}`. -/
def update_sync_status_props (status : String) : List (String × NProp) :=
  [("Sync Status", .select (Option.some (.str status)))]

/-- Outcomes of the collaborator calls one loop iteration of `main` may
issue for a record: whether `notion.pages.create` succeeds, whether the
`update_sync_status(..., "Synced")` call succeeds, and whether the
`update_sync_status(..., "Failed")` call issued by the `except` handlers
succeeds. -/
structure CollabBehavior where
  createOk : Bool
  updateSyncedOk : Bool
  updateFailedOk : Bool
deriving DecidableEq, Repr

/-- Observable result of one iteration of `main`'s per-page loop
(lines 225-246): the property mappings of the pages created in the slave
database during the iteration (nothing ever deletes them), the master
page's final `Sync Status` (it starts as `"Not Synced"`, since only such
pages are selected, and changes only when an update call succeeds), and
whether an exception escaped the iteration. -/
structure StepResult where
  slaveCreated : List (List (String × Option NProp))
  status : String
  escaped : Bool
deriving DecidableEq, Repr

/-- One iteration of `main`'s loop (lines 225-246) for one page: run
`sync_page`; on success call `pages.create`, then `update_sync_status`
to `"Synced"`; any exception from those is caught by the `except`
handlers, which call `update_sync_status(..., "Failed")` — and if that
recovery call itself raises, the exception escapes the iteration. -/
def processRecord (page : Page) (property_types : List (String × String))
    (cb : CollabBehavior) : StepResult :=
  match sync_page page property_types with
  | .error _ =>
      if cb.updateFailedOk then ⟨[], "Failed", false⟩ else ⟨[], "Not Synced", true⟩
  | .ok new_properties =>
      if cb.createOk then
        if cb.updateSyncedOk then ⟨[new_properties], "Synced", false⟩
        else if cb.updateFailedOk then ⟨[new_properties], "Failed", false⟩
        else ⟨[new_properties], "Not Synced", true⟩
      else if cb.updateFailedOk then ⟨[], "Failed", false⟩
      else ⟨[], "Not Synced", true⟩

/-- `main`'s per-page loop (lines 225-246) over the selected pages, each
paired with the behavior of the collaborator calls made for it.  An
exception escaping an iteration aborts the whole loop: later pages are
never processed.  Returns the per-page results and whether the run
aborted. -/
def runLoop (property_types : List (String × String)) :
    List (Page × CollabBehavior) → List StepResult × Bool
  | [] => ([], false)
  | (page, cb) :: rest =>
      let r := processRecord page property_types cb
      if r.escaped then ([r], true)
      else
        let (rs, aborted) := runLoop property_types rest
        (r :: rs, aborted)

/-- One response of `notion.databases.query`: the page of results and the
`has_more` flag (the cursor is modelled by position in the response
list). -/
structure QueryPage where
  results : List Page
  hasMore : Bool
deriving DecidableEq, Repr

/-- The `page_size` hint `get_master_pages` requests when a limit is
given (line 39): `min(limit, 100)`. -/
def requestedPageSize (limit : Nat) : Nat := min limit 100

/-- The pagination loop of `get_master_pages` (lines 46-53).  `pages` is
the accumulator, `hasMore` the previous response's `has_more`, and
`rest` the responses the collaborator will return to further queries.
The loop runs while `has_more` and (no limit or fewer than `limit`
accumulated); a page fetched inside the loop is appended and, when the
limit is reached or passed, the accumulator is truncated to exactly
`limit` and the loop breaks.  The initial page (handled in
`get_master_pages`) is never truncated. -/
def gmLoop (limit : Option Nat) (pages : List Page) (hasMore : Bool)
    (rest : List QueryPage) : List Page :=
  match hasMore, rest with
  | false, _ => pages
  | true, [] => pages
  | true, q :: qs =>
      match limit with
      | Option.none => gmLoop Option.none (pages ++ q.results) q.hasMore qs
      | Option.some l =>
          if pages.length < l then
            let pages2 := pages ++ q.results
            if l ≤ pages2.length then pages2.take l
            else gmLoop (Option.some l) pages2 q.hasMore qs
          else pages

/-- `get_master_pages(notion, db_id, limit)` (lines 27-57): the initial
query's results seed the accumulator untruncated, then the pagination
loop runs.  `responses` is the sequence of query responses the
collaborator returns (first element = initial query). -/
def get_master_pages (responses : List QueryPage) (limit : Option Nat) : List Page :=
  match responses with
  | [] => []
  | r :: rs => gmLoop limit r.results r.hasMore rs

/-- The eligibility filter `get_master_pages` sends with its query
(lines 29-36): `Sync Status` select equals `"Not Synced"` AND `Sync?`
select equals `"True"`, each an exact-match select filter. -/
def selectEquals (page : Page) (prop_name target : String) : Bool :=
  match page.properties.lookup prop_name with
  | Option.some (.select (Option.some (.str s))) => s == target
  | _ => false

/-- The conjunction of the two exact-match filters of the query in
`get_master_pages`. -/
def eligibleFilter (page : Page) : Bool :=
  selectEquals page "Sync Status" "Not Synced" && selectEquals page "Sync?" "True"

/-! Helper lemmas about the encoder. -/

lemma join_singleton (s : String) : String.join [s] = s := by
  simp [String.join]

lemma string_eq_empty_of_toList {s : String} (h : s.toList = []) : s = "" := by
  cases s with
  | mk data =>
      simp only [String.toList, String.data] at h
      subst h
      rfl

lemma cpo_title (n : String) (v : Value) :
    create_property_object n v "title" = .obj (.title [if pyTruthy v then pyStr v else ""]) := rfl

lemma cpo_rich_text (n : String) (v : Value) :
    create_property_object n v "rich_text" =
      .obj (.rich_text [if pyTruthy v then pyStr v else ""]) := rfl

lemma cpo_number (n : String) (v : Value) :
    create_property_object n v "number" = .obj (.number (if v = .none then .none else v)) := rfl

lemma cpo_select (n : String) (v : Value) :
    create_property_object n v "select" =
      if pyTruthy v then .obj (.select (Option.some v)) else .obj (.select Option.none) := rfl

lemma cpo_multi_select (n : String) (v : Value) :
    create_property_object n v "multi_select" =
      if pyTruthy v then
        match v with
        | .list xs => .obj (.multi_select xs)
        | .str s => .obj (.multi_select (s.toList.map (fun c => String.singleton c)))
        | _ => .raised
      else .obj (.multi_select []) := rfl

lemma cpo_date (n : String) (v : Value) :
    create_property_object n v "date" =
      if pyTruthy v then .obj (.date (Option.some v)) else .obj (.date Option.none) := rfl

lemma cpo_url (n : String) (v : Value) :
    create_property_object n v "url" = .obj (.url (if pyTruthy v then v else .none)) := rfl

lemma cpo_checkbox (n : String) (v : Value) :
    create_property_object n v "checkbox" =
      .obj (.checkbox (if v = .none then .bool false else v)) := rfl

/-- Encoding a plain string under the `title` tag always yields a single
segment carrying exactly that string. -/
lemma cpo_title_str (n : String) (c : String) :
    create_property_object n (.str c) "title" = .obj (.title [c]) := by
  rw [cpo_title]
  by_cases hc : c = "" <;> simp [pyTruthy, pyStr, hc]

lemma cpo_rich_text_str (n : String) (c : String) :
    create_property_object n (.str c) "rich_text" = .obj (.rich_text [c]) := by
  rw [cpo_rich_text]
  by_cases hc : c = "" <;> simp [pyTruthy, pyStr, hc]

lemma extract_title_single (c : String) : extractValue (.title [c]) = .str c := by
  simp [extractValue, join_singleton]

lemma extract_rich_text_single (c : String) : extractValue (.rich_text [c]) = .str c := by
  simp [extractValue, join_singleton]

/-- C7: for every destination type tag the encoder supports, encoding is
a retraction of extraction on representable property objects: whenever
`create_property_object` produces a property object `x` from some value,
extracting `x`'s value and re-encoding it under the same tag yields `x`
again. -/
theorem c7_encode_extract_roundtrip (n t : String) (v : Value) (x : NProp)
    (ht : handledTag t = true)
    (henc : create_property_object n v t = .obj x) :
    create_property_object n (extractValue x) t = .obj x := by
  by_cases h1 : t = "title"
  · subst h1
    rw [cpo_title] at henc
    injection henc with hx
    subst hx
    rw [extract_title_single, cpo_title_str]
  by_cases h2 : t = "rich_text"
  · subst h2
    rw [cpo_rich_text] at henc
    injection henc with hx
    subst hx
    rw [extract_rich_text_single, cpo_rich_text_str]
  by_cases h3 : t = "number"
  · subst h3
    rw [cpo_number] at henc
    injection henc with hx
    subst hx
    rw [cpo_number]
    by_cases hv : v = .none <;> simp [extractValue, hv]
  by_cases h4 : t = "select"
  · subst h4
    rw [cpo_select] at henc
    by_cases hv : pyTruthy v = true
    · rw [if_pos hv] at henc
      injection henc with hx
      subst hx
      show create_property_object n v "select" = _
      rw [cpo_select, if_pos hv]
    · rw [if_neg hv] at henc
      injection henc with hx
      subst hx
      rfl
  by_cases h5 : t = "multi_select"
  · subst h5
    rw [cpo_multi_select] at henc
    by_cases hv : pyTruthy v = true
    · rw [if_pos hv] at henc
      cases v with
      | none => simp [pyTruthy] at hv
      | str s =>
          injection henc with hx
          subst hx
          show create_property_object n
              (.list (s.toList.map (fun c => String.singleton c))) "multi_select" = _
          have hs : s ≠ "" := by simpa [pyTruthy] using hv
          have hl : s.toList.map (fun c => String.singleton c) ≠ [] := by
            intro hnil
            exact hs (string_eq_empty_of_toList (List.map_eq_nil_iff.mp hnil))
          rw [cpo_multi_select]
          simp [pyTruthy, hl]
      | num m => exact EncResult.noConfusion henc
      | bool b => exact EncResult.noConfusion henc
      | list xs =>
          injection henc with hx
          subst hx
          show create_property_object n (.list xs) "multi_select" = _
          rw [cpo_multi_select, if_pos hv]
    · rw [if_neg hv] at henc
      injection henc with hx
      subst hx
      rfl
  by_cases h6 : t = "date"
  · subst h6
    rw [cpo_date] at henc
    by_cases hv : pyTruthy v = true
    · rw [if_pos hv] at henc
      injection henc with hx
      subst hx
      show create_property_object n v "date" = _
      rw [cpo_date, if_pos hv]
    · rw [if_neg hv] at henc
      injection henc with hx
      subst hx
      rfl
  by_cases h7 : t = "url"
  · subst h7
    rw [cpo_url] at henc
    injection henc with hx
    subst hx
    by_cases hv : pyTruthy v = true
    · rw [if_pos hv]
      show create_property_object n v "url" = _
      rw [cpo_url, if_pos hv]
    · rw [if_neg hv]
      rfl
  by_cases h8 : t = "checkbox"
  · subst h8
    rw [cpo_checkbox] at henc
    injection henc with hx
    subst hx
    rw [cpo_checkbox]
    by_cases hv : v = .none <;> simp [extractValue, hv]
  exfalso
  simp [create_property_object, h1, h2, h3, h4, h5, h6, h7, h8] at henc

/-- Witness for C7 at a concrete input: encoding the string `"a"` as a
`select` and re-encoding its extracted value round-trips. -/
theorem c7_witness :
    handledTag "select" = true ∧
    create_property_object "Niche" (.str "a") "select" =
      .obj (.select (Option.some (.str "a"))) ∧
    create_property_object "Niche"
        (extractValue (.select (Option.some (.str "a")))) "select" =
      .obj (.select (Option.some (.str "a"))) :=
  ⟨by decide, by decide,
    c7_encode_extract_roundtrip "Niche" "select" (.str "a")
      (.select (Option.some (.str "a"))) (by decide) (by decide)⟩

/-- C8: extraction of an absent field yields `None`; extraction of a
`select` with no selected option yields `None`; of a `multi_select` with
zero selections yields the empty list; and of a `title` or `rich_text`
property with an empty segment list yields the empty string (not
`None`).  All cases are plain returns of the total function
`extract_property_value` — none raises. -/
theorem c8_extraction_empty_cases (page : Page) (name : String)
    (habs : page.properties.lookup name = Option.none) :
    extract_property_value page name = .none ∧
    extractValue (.select Option.none) = .none ∧
    extractValue (.multi_select []) = .list [] ∧
    extractValue (.title []) = .str "" ∧
    extractValue (.rich_text []) = .str "" := by
  refine ⟨?_, rfl, rfl, rfl, rfl⟩
  simp [extract_property_value, habs]

/-- Witness for C8: a page with an empty property mapping has no
`"Impressions"` key, and extraction yields `None` there. -/
theorem c8_witness :
    extract_property_value ⟨"w8", []⟩ "Impressions" = .none ∧
    extractValue (.select Option.none) = .none ∧
    extractValue (.multi_select []) = .list [] ∧
    extractValue (.title []) = .str "" ∧
    extractValue (.rich_text []) = .str "" :=
  c8_extraction_empty_cases ⟨"w8", []⟩ "Impressions" rfl

/-- C10: the encoder handles a strict subset of the extractor's type
tags — for every value, `create_property_object` under the destination
tags `email`, `phone_number` and `formula` falls into the unhandled
branch and returns `None`, although the extractor reads all three tags
(shown on sample payloads, where it returns the carried value rather
than the unrecognized-tag `None`). -/
theorem c10_encoder_subset_extractor (n : String) (v : Value) :
    create_property_object n v "email" = .retNone ∧
    create_property_object n v "phone_number" = .retNone ∧
    create_property_object n v "formula" = .retNone ∧
    handledTag "email" = false ∧
    handledTag "phone_number" = false ∧
    handledTag "formula" = false ∧
    extractValue (.email (.str "a@b.c")) = .str "a@b.c" ∧
    extractValue (.phone_number (.str "555")) = .str "555" ∧
    extractValue (.formula (.fstring (.str "fx"))) = .str "fx" :=
  ⟨rfl, rfl, rfl, rfl, rfl, rfl, rfl, rfl, rfl⟩

/-! Invariants of the sync_page scan. -/

/-- How `sync_page` stores an encoder outcome in `new_properties`: a
property object is stored as is, a Python `None` return is stored as the
entry's value too (line 178 assigns whatever the encoder returned), and
a raised exception stores nothing. -/
def toStored : EncResult → Option (Option NProp)
  | .obj p => Option.some (Option.some p)
  | .retNone => Option.some Option.none
  | .raised => Option.none

/-- An entry of the assembled `new_properties` mapping is correctly
derived: its name has a tag in the destination schema, and its stored
value is the result of encoding the extracted source value under that
destination tag. -/
def entryOK (page : Page) (property_types : List (String × String))
    (e : String × Option NProp) : Prop :=
  ∃ t, property_types.lookup e.1 = Option.some t ∧
    toStored (create_property_object e.1 (extract_property_value page e.1) t) =
      Option.some e.2

lemma syncScan_entries (page : Page) (property_types : List (String × String)) :
    ∀ (todo : List String) (props : List (String × Option NProp)) (missing : List String)
      (out : List (String × Option NProp) × List String),
      syncScan page property_types todo props missing = .ok out →
      (∀ e ∈ props, entryOK page property_types e) →
      ∀ e ∈ out.1, entryOK page property_types e := by
  intro todo
  induction todo with
  | nil =>
      intro props missing out h hprops
      simp only [syncScan] at h
      injection h with h
      subst h
      exact hprops
  | cons n rest ih =>
      intro props missing out h hprops
      simp only [syncScan] at h
      split at h
      · exact ih _ _ _ h hprops
      · split at h
        · exact ih _ _ _ h hprops
        · split at h
          · rename_i hcond
            obtain ⟨hn, hlk⟩ := hcond
            subst hn
            split at h
            · rename_i p hobj
              refine ih _ _ _ h ?_
              intro e he
              rcases List.mem_append.mp he with he | he
              · exact hprops e he
              · simp only [List.mem_singleton] at he
                subst he
                exact ⟨"title", hlk, by simp [toStored, hobj]⟩
            · rename_i hnone
              refine ih _ _ _ h ?_
              intro e he
              rcases List.mem_append.mp he with he | he
              · exact hprops e he
              · simp only [List.mem_singleton] at he
                subst he
                exact ⟨"title", hlk, by simp [toStored, hnone]⟩
            · exact Except.noConfusion h
          · split at h
            · rename_i t hlk
              split at h
              · rename_i p hobj
                refine ih _ _ _ h ?_
                intro e he
                rcases List.mem_append.mp he with he | he
                · exact hprops e he
                · simp only [List.mem_singleton] at he
                  subst he
                  exact ⟨t, hlk, by simp [toStored, hobj]⟩
              · rename_i hnone
                refine ih _ _ _ h ?_
                intro e he
                rcases List.mem_append.mp he with he | he
                · exact hprops e he
                · simp only [List.mem_singleton] at he
                  subst he
                  exact ⟨t, hlk, by simp [toStored, hnone]⟩
              · exact Except.noConfusion h
            · exact ih _ _ _ h hprops

lemma sync_page_entries (page : Page)
    (property_types : List (String × String)) (props : List (String × Option NProp))
    (h : sync_page page property_types = .ok props) :
    ∀ e ∈ props, entryOK page property_types e := by
  unfold sync_page at h
  cases hs : syncScan page property_types properties_to_sync [] [] with
  | error e => rw [hs] at h; exact Except.noConfusion h
  | ok pm =>
      obtain ⟨np, mp⟩ := pm
      rw [hs] at h
      simp only at h
      split at h
      · injection h with h
        subst h
        exact syncScan_entries page property_types properties_to_sync [] [] (np, mp) hs
          (by intro e he; exact absurd he (List.not_mem_nil e))
      · exact Except.noConfusion h

/-- C1: every entry of the property mapping `sync_page` assembles for
the destination write is encoded according to the destination schema's
type tag for that name (never the source property's own tag): the stored
value is exactly `create_property_object` applied to the extracted
source value and the tag `property_types` declares for the name. -/
theorem c1_encoded_per_destination_tag (page : Page)
    (property_types : List (String × String)) (props : List (String × Option NProp))
    (h : sync_page page property_types = .ok props) :
    ∀ e ∈ props, ∃ t, property_types.lookup e.1 = Option.some t ∧
      toStored (create_property_object e.1 (extract_property_value page e.1) t) =
        Option.some e.2 :=
  sync_page_entries page property_types props h

/-- Concrete inputs shared by several witnesses: a master page carrying
every required field as a one-segment rich text `"x"`, a destination
schema typing every required field as `rich_text`, and the property
mapping `sync_page` assembles from them. -/
def wPage : Page := ⟨"w1", properties_to_sync.map (fun n => (n, NProp.rich_text ["x"]))⟩

def wTypes : List (String × String) := properties_to_sync.map (fun n => (n, "rich_text"))

def wProps : List (String × Option NProp) :=
  properties_to_sync.map (fun n => (n, Option.some (NProp.rich_text ["x"])))

/-- Encoding the extracted value of `n` under the destination schema's
tag for `n` does not raise (vacuously true when the schema lacks `n`).
This is the side condition under which the scan of `sync_page` cannot
die of a `TypeError` at `n`. -/
def encodeSafe (page : Page) (property_types : List (String × String)) (n : String) : Bool :=
  match property_types.lookup n with
  | Option.none => true
  | Option.some t =>
      match create_property_object n (extract_property_value page n) t with
      | .raised => false
      | _ => true

lemma syncScan_spec (page : Page) (property_types : List (String × String)) :
    ∀ (todo : List String) (props : List (String × Option NProp)) (missing : List String),
      (∀ n ∈ todo, encodeSafe page property_types n = true) →
      ∃ props',
        syncScan page property_types todo props missing =
          .ok (props ++ props', missing ++ todo.filter (fun n => !(fieldValid page n))) ∧
        props'.map Prod.fst =
          todo.filter (fun n => fieldValid page n && (property_types.lookup n).isSome) := by
  intro todo
  induction todo with
  | nil =>
      intro props missing _
      exact ⟨[], by simp [syncScan], by simp⟩
  | cons n rest ih =>
      intro props missing hsafe
      have hsn := hsafe n (List.mem_cons_self n rest)
      have hsr : ∀ m ∈ rest, encodeSafe page property_types m = true :=
        fun m hm => hsafe m (List.mem_cons_of_mem n hm)
      cases hl : page.properties.lookup n with
      | none =>
          have hfv : fieldValid page n = false := by simp [fieldValid, hl]
          obtain ⟨props', hscan, hkeys⟩ := ih props (missing ++ [n]) hsr
          refine ⟨props', ?_, ?_⟩
          · simp only [syncScan, hl]
            rw [hscan]
            simp [hfv]
          · simp [hkeys, hfv]
      | some p0 =>
          by_cases hm : isMissingVal (extract_property_value page n) = true
          · have hfv : fieldValid page n = false := by simp [fieldValid, hm]
            obtain ⟨props', hscan, hkeys⟩ := ih props (missing ++ [n]) hsr
            refine ⟨props', ?_, ?_⟩
            · simp only [syncScan, hl]
              rw [if_pos hm, hscan]
              simp [hfv]
            · simp [hkeys, hfv]
          · have hfv : fieldValid page n = true := by simp [fieldValid, hl, hm]
            by_cases hcond : n = "Name" ∧ property_types.lookup "Name" = Option.some "title"
            · obtain ⟨hn, hlk⟩ := hcond
              subst hn
              obtain ⟨props', hscan, hkeys⟩ :=
                ih (props ++ [("Name",
                  Option.some (.title [if pyTruthy (extract_property_value page "Name")
                    then pyStr (extract_property_value page "Name") else ""]))]) missing hsr
              refine ⟨("Name",
                  Option.some (.title [if pyTruthy (extract_property_value page "Name")
                    then pyStr (extract_property_value page "Name") else ""])) :: props', ?_, ?_⟩
              · simp only [syncScan, hl]
                rw [if_neg (by simpa using hm)]
                simp only [hlk, cpo_title, Option.some.injEq, and_true, true_and, if_true,
                  eq_self_iff_true]
                rw [hscan]
                simp [hfv, hlk]
              · simp [hkeys, hfv, hlk]
            · cases hlk : property_types.lookup n with
              | none =>
                  obtain ⟨props', hscan, hkeys⟩ := ih props missing hsr
                  refine ⟨props', ?_, ?_⟩
                  · simp only [syncScan, hl]
                    rw [if_neg (by simpa using hm), if_neg hcond]
                    simp only [hlk]
                    rw [hscan]
                    simp [hfv]
                  · simp [hkeys, hfv, hlk]
              | some t =>
                  cases hc : create_property_object n (extract_property_value page n) t with
                  | raised =>
                      exfalso
                      simp [encodeSafe, hlk, hc] at hsn
                  | obj p' =>
                      obtain ⟨props', hscan, hkeys⟩ :=
                        ih (props ++ [(n, Option.some p')]) missing hsr
                      refine ⟨(n, Option.some p') :: props', ?_, ?_⟩
                      · simp only [syncScan, hl]
                        rw [if_neg (by simpa using hm), if_neg hcond]
                        simp only [hlk, hc]
                        rw [hscan]
                        simp [hfv]
                      · simp [hkeys, hfv, hlk]
                  | retNone =>
                      obtain ⟨props', hscan, hkeys⟩ :=
                        ih (props ++ [(n, Option.none)]) missing hsr
                      refine ⟨(n, Option.none) :: props', ?_, ?_⟩
                      · simp only [syncScan, hl]
                        rw [if_neg (by simpa using hm), if_neg hcond]
                        simp only [hlk, hc]
                        rw [hscan]
                        simp [hfv]
                      · simp [hkeys, hfv, hlk]

/-- Witness for C1: on the concrete all-rich-text page, `sync_page`
succeeds and the `"Name"` entry is encoded per the destination tag. -/
theorem c1_witness :
    sync_page wPage wTypes = .ok wProps ∧
    (("Name", Option.some (NProp.rich_text ["x"])) ∈ wProps ∧
      ∃ t, wTypes.lookup "Name" = Option.some t ∧
        toStored (create_property_object "Name" (extract_property_value wPage "Name") t) =
          Option.some (Option.some (NProp.rich_text ["x"]))) := by
  have hok : sync_page wPage wTypes = .ok wProps := by rfl
  have hmem : ("Name", Option.some (NProp.rich_text ["x"])) ∈ wProps := by decide
  exact ⟨hok, hmem,
    c1_encoded_per_destination_tag wPage wTypes wProps hok _ hmem⟩

lemma sync_page_of_scan (page : Page) (property_types : List (String × String))
    (hsafe : ∀ n ∈ properties_to_sync, encodeSafe page property_types n = true) :
    (collectMissing page = [] →
      ∃ props, sync_page page property_types = .ok props ∧
        props.map Prod.fst = properties_to_sync.filter
          (fun n => fieldValid page n && (property_types.lookup n).isSome)) ∧
    (collectMissing page ≠ [] →
      sync_page page property_types = .error (.valueError (collectMissing page))) := by
  obtain ⟨props', hscan, hkeys⟩ :=
    syncScan_spec page property_types properties_to_sync [] [] hsafe
  simp only [List.nil_append] at hscan
  constructor
  · intro hnone
    refine ⟨props', ?_, hkeys⟩
    unfold sync_page
    rw [hscan]
    have hq : (properties_to_sync.filter fun n => !(fieldValid page n)) = [] := hnone
    simp [hq]
  · intro hne
    unfold sync_page
    rw [hscan]
    have hq : (properties_to_sync.filter fun n => !(fieldValid page n)) ≠ [] := hne
    simp only []
    rw [if_neg (by simpa [List.isEmpty_iff] using hq)]
    rfl

/-- The C2 counterexample page: `"Name"` carries the number `1` and every
other required field is absent. -/
def cex2Page : Page := ⟨"p2", [("Name", .number (.num 1))]⟩

/-- The C2 counterexample destination schema: `"Name"` is a
`multi_select`, so encoding the number `1` raises `TypeError`. -/
def cex2Types : List (String × String) := [("Name", "multi_select")]

/-- Counterexample to C2 as stated: on `cex2Page` thirteen required
fields are missing or empty, yet `sync_page` raises `TypeError` while
encoding `"Name"` (encoding is interleaved with validation), so the scan
short-circuits and the diagnostic is not the `ValueError` naming the
missing fields. -/
theorem c2_counterexample :
    collectMissing cex2Page =
      ["Impressions", "Likes", "Bookmarks", "Retweets", "Comments", "CTR", "URL",
       "Author", "Handle", "Date", "Retention", "Engagement Rate", "Niche"] ∧
    sync_page cex2Page cex2Types = .error .typeError ∧
    SyncErr.typeError ≠
      .valueError ["Impressions", "Likes", "Bookmarks", "Retweets", "Comments", "CTR", "URL",
        "Author", "Handle", "Date", "Retention", "Engagement Rate", "Niche"] :=
  ⟨by decide, rfl, by decide⟩

/-- C2 (amended): for every source record with at least one required
field missing or empty, *provided encoding the present fields under
their destination tags raises no exception* (the code interleaves
encoding with validation, so an encoding `TypeError` preempts the
diagnostic) *and the Failed status update succeeds*, validation checks
every name without short-circuiting, no destination write is attempted,
the record's status becomes Failed, and the `ValueError` diagnostic
names exactly the missing-or-empty field names, in order. -/
theorem c2_amended_validation_collects_all (page : Page)
    (property_types : List (String × String)) (cb : CollabBehavior)
    (hsafe : ∀ n ∈ properties_to_sync, encodeSafe page property_types n = true)
    (hmiss : collectMissing page ≠ [])
    (hupd : cb.updateFailedOk = true) :
    sync_page page property_types = .error (.valueError (collectMissing page)) ∧
    processRecord page property_types cb = ⟨[], "Failed", false⟩ := by
  have herr := (sync_page_of_scan page property_types hsafe).2 hmiss
  refine ⟨herr, ?_⟩
  unfold processRecord
  rw [herr]
  simp [hupd]

/-- Witness for C2 (amended) at a record missing every required field. -/
theorem c2_witness :
    sync_page ⟨"w2", []⟩ [] = .error (.valueError (collectMissing ⟨"w2", []⟩)) ∧
    processRecord ⟨"w2", []⟩ [] ⟨true, true, true⟩ = ⟨[], "Failed", false⟩ :=
  c2_amended_validation_collects_all ⟨"w2", []⟩ [] ⟨true, true, true⟩
    (by decide) (by decide) rfl

/-- The C4 counterexample destination schema: every required field is
typed `email`, a tag the encoder does not handle. -/
def cex4Types : List (String × String) := properties_to_sync.map (fun n => (n, "email"))

/-- Counterexample to C4 as stated: with every destination tag unhandled,
`sync_page` still stores an entry under every field name — the value is
the Python `None` the encoder returned, the key is not dropped.  In
particular the assembled mapping *does* contain an entry under
`"Name"`. -/
theorem c4_counterexample :
    sync_page wPage cex4Types =
      .ok (properties_to_sync.map (fun n => (n, (Option.none : Option NProp)))) ∧
    (properties_to_sync.map (fun n => (n, (Option.none : Option NProp)))).lookup "Name" =
      Option.some Option.none :=
  ⟨rfl, rfl⟩

/-- C4 (amended): for a required field whose destination tag is not one
of the explicitly handled tags, the encoder returns `None`, and the
assembled property mapping maps that field's name to `None` (the entry
is present with a null value) rather than omitting the entry. -/
theorem c4_amended_unhandled_tag_null_entry :
    (∀ (n : String) (v : Value) (t : String), handledTag t = false →
      create_property_object n v t = .retNone) ∧
    (∀ (page : Page) (property_types : List (String × String))
        (props : List (String × Option NProp)) (e : String × Option NProp) (t : String),
      sync_page page property_types = .ok props → e ∈ props →
      property_types.lookup e.1 = Option.some t → handledTag t = false →
      e.2 = Option.none) := by
  have hret : ∀ (n : String) (v : Value) (t : String), handledTag t = false →
      create_property_object n v t = .retNone := by
    intro n v t h
    simp only [handledTag, Bool.or_eq_false_iff, beq_eq_false_iff_ne, ne_eq] at h
    obtain ⟨⟨⟨⟨⟨⟨⟨h1, h2⟩, h3⟩, h4⟩, h5⟩, h6⟩, h7⟩, h8⟩ := h
    simp [create_property_object, h1, h2, h3, h4, h5, h6, h7, h8]
  refine ⟨hret, ?_⟩
  intro page property_types props e t hok he hlk hun
  obtain ⟨t', hlk', hst⟩ := sync_page_entries page property_types props hok e he
  rw [hlk] at hlk'
  injection hlk' with ht'
  subst ht'
  rw [hret e.1 (extract_property_value page e.1) t hun] at hst
  simpa [toStored] using hst.symm

/-- Witness for C4 (amended): encoding any value under the `email` tag
returns `None`. -/
theorem c4_witness :
    handledTag "email" = false ∧
    create_property_object "Niche" (.num 7) "email" = .retNone :=
  ⟨by decide, c4_amended_unhandled_tag_null_entry.1 "Niche" (.num 7) "email" (by decide)⟩

/-- The C5 counterexample page: every required field present and
non-empty (the number `1`). -/
def cex5Page : Page := ⟨"p5", properties_to_sync.map (fun n => (n, NProp.number (.num 1)))⟩

/-- The C5 counterexample destination schema: every required field typed
`multi_select`, so encoding the number `1` raises `TypeError`. -/
def cex5Types : List (String × String) := properties_to_sync.map (fun n => (n, "multi_select"))

/-- Counterexample to C5 as stated: all required fields are present and
non-empty and the destination schema contains every required name, yet
no `createRecord` call with one entry per name happens — encoding
`"Name"` raises, the record is marked Failed even with every
collaborator call succeeding, and nothing is created. -/
theorem c5_counterexample :
    collectMissing cex5Page = [] ∧
    properties_to_sync.all (fun n => (cex5Types.lookup n).isSome) = true ∧
    sync_page cex5Page cex5Types = .error .typeError ∧
    processRecord cex5Page cex5Types ⟨true, true, true⟩ = ⟨[], "Failed", false⟩ :=
  ⟨by decide, by decide, rfl, rfl⟩

/-- C5 (amended): for every source record whose required fields all
extract to present, non-empty values, whose destination schema contains
every required name, and *whose encodings raise no exception*, the
single create call receives a property mapping with exactly one entry
per required name (in `properties_to_sync` order), and the record's
status becomes Synced only if the create call succeeded. -/
theorem c5_amended_one_entry_per_required (page : Page)
    (property_types : List (String × String))
    (hvalid : collectMissing page = [])
    (hschema : ∀ n ∈ properties_to_sync, (property_types.lookup n).isSome = true)
    (hsafe : ∀ n ∈ properties_to_sync, encodeSafe page property_types n = true) :
    ∃ props, sync_page page property_types = .ok props ∧
      props.map Prod.fst = properties_to_sync ∧
      (∀ cb : CollabBehavior, cb.createOk = true → cb.updateSyncedOk = true →
        processRecord page property_types cb = ⟨[props], "Synced", false⟩) ∧
      (∀ cb : CollabBehavior, (processRecord page property_types cb).status = "Synced" →
        cb.createOk = true) := by
  obtain ⟨props, hok, hkeys⟩ := (sync_page_of_scan page property_types hsafe).1 hvalid
  have hfv : ∀ n ∈ properties_to_sync, fieldValid page n = true := by
    intro n hn
    have := List.filter_eq_nil_iff.mp hvalid n hn
    simpa using this
  refine ⟨props, hok, ?_, ?_, ?_⟩
  · rw [hkeys]
    apply List.filter_eq_self.mpr
    intro n hn
    simp [hfv n hn, hschema n hn]
  · intro cb h1 h2
    unfold processRecord
    rw [hok]
    simp [h1, h2]
  · intro cb hs
    by_contra hc
    have hc' : cb.createOk = false := by
      cases hcb : cb.createOk
      · rfl
      · exact absurd hcb hc
    unfold processRecord at hs
    rw [hok] at hs
    cases hu : cb.updateFailedOk <;> simp [hc', hu] at hs

/-- Witness for C5 (amended) on the concrete all-rich-text page: the
create call receives `wProps` (one entry per required name) and the
record ends Synced when all collaborator calls succeed. -/
theorem c5_witness :
    sync_page wPage wTypes = .ok wProps ∧
    wProps.map Prod.fst = properties_to_sync ∧
    processRecord wPage wTypes ⟨true, true, true⟩ = ⟨[wProps], "Synced", false⟩ := by
  obtain ⟨props, hok, hkeys, hpos, _⟩ :=
    c5_amended_one_entry_per_required wPage wTypes (by decide) (by decide) (by decide)
  have hw : sync_page wPage wTypes = .ok wProps := rfl
  rw [hw] at hok
  injection hok with hok
  subst hok
  exact ⟨hw, hkeys, hpos ⟨true, true, true⟩ rfl rfl⟩

/-! Per-record error handling in the main loop. -/

/-- Some error occurred for the record: `sync_page` raised, the create
call failed, or the Synced status update failed. -/
def stepHadError (page : Page) (property_types : List (String × String))
    (cb : CollabBehavior) : Prop :=
  (∃ e, sync_page page property_types = .error e) ∨
    cb.createOk = false ∨ cb.updateSyncedOk = false

lemma processRecord_no_escape (page : Page) (property_types : List (String × String))
    (cb : CollabBehavior) (hupd : cb.updateFailedOk = true) :
    (processRecord page property_types cb).escaped = false ∧
    ((processRecord page property_types cb).status = "Synced" ∨
      (processRecord page property_types cb).status = "Failed") ∧
    (stepHadError page property_types cb →
      (processRecord page property_types cb).status = "Failed") := by
  unfold processRecord
  cases hs : sync_page page property_types with
  | error e => simp [hupd]
  | ok props =>
      cases hco : cb.createOk
      · simp [hupd, hco]
      · cases huo : cb.updateSyncedOk
        · simp [hupd, hco, huo]
        · refine ⟨by simp [hco, huo], Or.inl (by simp [hco, huo]), ?_⟩
          intro herr
          exfalso
          rcases herr with ⟨e, he⟩ | hcf | huf
          · rw [hs] at he
            exact Except.noConfusion he
          · rw [hco] at hcf
            exact Bool.noConfusion hcf
          · rw [huo] at huf
            exact Bool.noConfusion huf

lemma runLoop_no_abort (property_types : List (String × String)) :
    ∀ (l : List (Page × CollabBehavior)),
      (∀ pc ∈ l, pc.2.updateFailedOk = true) →
      runLoop property_types l =
        (l.map (fun pc => processRecord pc.1 property_types pc.2), false) := by
  intro l
  induction l with
  | nil => intro _; rfl
  | cons pc rest ih =>
      intro hupd
      have hesc := (processRecord_no_escape pc.1 property_types pc.2
        (hupd pc (List.mem_cons_self pc rest))).1
      have ihr := ih (fun q hq => hupd q (List.mem_cons_of_mem pc hq))
      simp [runLoop, hesc, ihr]

/-- Counterexample to C3 as stated: a record whose `sync_page` raises
(every field missing) and whose recovery `Failed` status update itself
raises.  The per-record exception escapes the loop iteration, the
record's status stays `"Not Synced"` rather than `"Failed"`, the run
aborts, and the second record is never processed. -/
theorem c3_counterexample :
    sync_page ⟨"p3", []⟩ [] = .error (.valueError properties_to_sync) ∧
    runLoop [] [(⟨"p3", []⟩, ⟨true, true, false⟩), (⟨"p3b", []⟩, ⟨true, true, true⟩)] =
      ([⟨[], "Not Synced", true⟩], true) :=
  ⟨rfl, rfl⟩

/-- C3 (amended): *provided the recovery `Failed` status update call
succeeds for every record*, any exception during encoding, creation or
the Synced status update marks the record Failed and processing
proceeds: no iteration escapes, the run never aborts, and every record
gets a result (if the recovery update raises, the exception escapes the
iteration and aborts the run — see the counterexample). -/
theorem c3_amended_errors_marked_failed (property_types : List (String × String))
    (l : List (Page × CollabBehavior))
    (hupd : ∀ pc ∈ l, pc.2.updateFailedOk = true) :
    (runLoop property_types l).2 = false ∧
    (runLoop property_types l).1 =
      l.map (fun pc => processRecord pc.1 property_types pc.2) ∧
    ∀ pc ∈ l, (processRecord pc.1 property_types pc.2).escaped = false ∧
      ((processRecord pc.1 property_types pc.2).status = "Synced" ∨
        (processRecord pc.1 property_types pc.2).status = "Failed") ∧
      (stepHadError pc.1 property_types pc.2 →
        (processRecord pc.1 property_types pc.2).status = "Failed") := by
  have hl := runLoop_no_abort property_types l hupd
  refine ⟨by rw [hl], by rw [hl], ?_⟩
  intro pc hpc
  exact processRecord_no_escape pc.1 property_types pc.2 (hupd pc hpc)

/-- Witness for C3 (amended): one record whose `sync_page` raises but
whose Failed update succeeds — the run does not abort and the record is
marked Failed. -/
theorem c3_witness :
    (runLoop [] [(⟨"w3", []⟩, ⟨true, true, true⟩)]).2 = false ∧
    (runLoop [] [(⟨"w3", []⟩, ⟨true, true, true⟩)]).1 =
      [processRecord ⟨"w3", []⟩ [] ⟨true, true, true⟩] ∧
    (processRecord ⟨"w3", []⟩ [] ⟨true, true, true⟩).status = "Failed" := by
  have h := c3_amended_errors_marked_failed [] [(⟨"w3", []⟩, ⟨true, true, true⟩)]
    (by decide)
  refine ⟨h.1, by rw [h.2.1]; rfl, ?_⟩
  exact (h.2.2 (⟨"w3", []⟩, ⟨true, true, true⟩) (List.mem_singleton.mpr rfl)).2.2
    (Or.inl ⟨.valueError properties_to_sync, rfl⟩)

/-- C9: if `sync_page` assembled a mapping, the create call succeeded,
the Synced status update raised, and the recovery Failed update
succeeded, then the record ends with status Failed while the created
slave record persists (nothing deletes it) and no exception escapes:
a record can exist in the destination yet carry Failed in the source. -/
theorem c9_created_persists_status_failed (page : Page)
    (property_types : List (String × String)) (props : List (String × Option NProp))
    (cb : CollabBehavior)
    (hok : sync_page page property_types = .ok props)
    (hc : cb.createOk = true) (hus : cb.updateSyncedOk = false)
    (huf : cb.updateFailedOk = true) :
    processRecord page property_types cb = ⟨[props], "Failed", false⟩ := by
  unfold processRecord
  rw [hok]
  simp [hc, hus, huf]

/-- Witness for C9 on the concrete all-rich-text page: create succeeds,
the Synced update fails, and the record ends Failed with the created
mapping persisting. -/
theorem c9_witness :
    processRecord wPage wTypes ⟨true, false, true⟩ = ⟨[wProps], "Failed", false⟩ :=
  c9_created_persists_status_failed wPage wTypes wProps ⟨true, false, true⟩ rfl rfl rfl rfl

/-! Pagination. -/

/-- Length of the initial query's result page (the page `get_master_pages`
seeds its accumulator with, untruncated). -/
def firstPageLen : List QueryPage → Nat
  | [] => 0
  | r :: _ => r.results.length

/-- Every response except possibly the last reports `has_more` — the
condition under which the pagination loop consumes the whole response
sequence. -/
def allMoreButLast : List QueryPage → Bool
  | [] => true
  | q :: qs => (qs.isEmpty || q.hasMore) && allMoreButLast qs

lemma gmLoop_length_le (l : Nat) :
    ∀ (rest : List QueryPage) (pages : List Page) (hasMore : Bool),
      pages.length ≤ l → (gmLoop (Option.some l) pages hasMore rest).length ≤ l := by
  intro rest
  induction rest with
  | nil =>
      intro pages hm hlen
      cases hm <;> simpa [gmLoop] using hlen
  | cons q qs ih =>
      intro pages hm hlen
      cases hm
      · simpa [gmLoop] using hlen
      · simp only [gmLoop]
        by_cases hlt : pages.length < l
        · rw [if_pos hlt]
          by_cases hge : l ≤ (pages ++ q.results).length
          · rw [if_pos hge]
            simp only [List.length_take]
            omega
          · rw [if_neg hge]
            exact ih _ _ (Nat.le_of_lt (Nat.lt_of_not_le hge))
        · rw [if_neg hlt]
          exact hlen

lemma gmLoop_none_join :
    ∀ (rest : List QueryPage) (pages : List Page) (hasMore : Bool),
      (rest ≠ [] → hasMore = true) → allMoreButLast rest = true →
      gmLoop Option.none pages hasMore rest =
        pages ++ (rest.map QueryPage.results).flatten := by
  intro rest
  induction rest with
  | nil =>
      intro pages hm _ _
      cases hm <;> simp [gmLoop]
  | cons q qs ih =>
      intro pages hm hhm hchain
      have hm' : hm = true := hhm (by simp)
      subst hm'
      simp only [allMoreButLast, Bool.and_eq_true, Bool.or_eq_true] at hchain
      obtain ⟨hq, hqs⟩ := hchain
      simp only [gmLoop]
      rw [ih (pages ++ q.results) q.hasMore ?_ hqs]
      · simp
      · intro hne
        rcases hq with hq | hq
        · exact absurd (List.isEmpty_iff.mp hq) hne
        · exact hq

lemma gmLoop_filter (P : Page → Bool) :
    ∀ (rest : List QueryPage) (limit : Option Nat) (pages : List Page) (hasMore : Bool),
      (∀ p ∈ pages, P p = true) →
      (∀ q ∈ rest, ∀ p ∈ q.results, P p = true) →
      ∀ p ∈ gmLoop limit pages hasMore rest, P p = true := by
  intro rest
  induction rest with
  | nil =>
      intro limit pages hm hpages _ p hp
      cases hm <;> simp only [gmLoop] at hp <;> exact hpages p hp
  | cons q qs ih =>
      intro limit pages hm hpages hrest p hp
      have hq : ∀ p ∈ q.results, P p = true := hrest q (List.mem_cons_self q qs)
      have hqs : ∀ r ∈ qs, ∀ p ∈ r.results, P p = true :=
        fun r hr => hrest r (List.mem_cons_of_mem q hr)
      have happ : ∀ x ∈ pages ++ q.results, P x = true := by
        intro x hx
        rcases List.mem_append.mp hx with hx | hx
        · exact hpages x hx
        · exact hq x hx
      cases hm
      · simp only [gmLoop] at hp
        exact hpages p hp
      · cases limit with
        | none =>
            simp only [gmLoop] at hp
            exact ih Option.none (pages ++ q.results) q.hasMore happ hqs p hp
        | some l =>
            simp only [gmLoop] at hp
            by_cases hlt : pages.length < l
            · rw [if_pos hlt] at hp
              by_cases hge : l ≤ (pages ++ q.results).length
              · rw [if_pos hge] at hp
                exact happ p (List.mem_of_mem_take hp)
              · rw [if_neg hge] at hp
                exact ih (Option.some l) (pages ++ q.results) q.hasMore happ hqs p hp
            · rw [if_neg hlt] at hp
              exact hpages p hp

/-- A concrete eligible master page: `Sync Status` is the select option
`"Not Synced"` and `Sync?` is the select option `"True"`. -/
def ePage (i : String) : Page :=
  ⟨i, [("Sync Status", .select (Option.some (.str "Not Synced"))),
      ("Sync?", .select (Option.some (.str "True")))]⟩

/-- Counterexample to C6 as stated: with cap 1 and a single collaborator
response of two results (`has_more` false), `get_master_pages` returns
both records — the initial page is never truncated, so the result
exceeds the cap. -/
theorem c6_counterexample :
    get_master_pages [⟨[ePage "a", ePage "b"], false⟩] (Option.some 1) =
      [ePage "a", ePage "b"] ∧
    ¬((get_master_pages [⟨[ePage "a", ePage "b"], false⟩] (Option.some 1)).length ≤ 1) :=
  ⟨rfl, by decide⟩

/-- C6 (amended): when a cap is given, `get_master_pages` returns at
most `cap` records *provided the initial response contains at most
`cap` results* (the initial page is never truncated, so an oversized
first response is returned in full — see the counterexample); a page
fetched inside the loop that reaches the cap is truncated to exactly
`cap` entries; with no cap it returns exactly the concatenation of all
responses (when every response but the last reports `has_more`); and
every returned record satisfies the eligibility filter whenever the
collaborator's responses do. -/
theorem c6_amended_cap_and_accumulation (responses : List QueryPage) (l : Nat) :
    (firstPageLen responses ≤ l →
      (get_master_pages responses (Option.some l)).length ≤ l) ∧
    (allMoreButLast responses = true →
      get_master_pages responses Option.none = (responses.map QueryPage.results).flatten) ∧
    (∀ (q : QueryPage) (qs : List QueryPage) (pages : List Page),
      pages.length < l → l ≤ (pages ++ q.results).length →
      gmLoop (Option.some l) pages true (q :: qs) = (pages ++ q.results).take l ∧
      ((pages ++ q.results).take l).length = l) ∧
    (∀ (limit : Option Nat),
      (∀ q ∈ responses, ∀ p ∈ q.results, eligibleFilter p = true) →
      ∀ p ∈ get_master_pages responses limit, eligibleFilter p = true) := by
  refine ⟨?_, ?_, ?_, ?_⟩
  · intro hfirst
    cases responses with
    | nil => simp [get_master_pages]
    | cons r rs =>
        exact gmLoop_length_le l rs r.results r.hasMore hfirst
  · intro hchain
    cases responses with
    | nil => simp [get_master_pages]
    | cons r rs =>
        simp only [allMoreButLast, Bool.and_eq_true, Bool.or_eq_true] at hchain
        obtain ⟨hr, hrs⟩ := hchain
        simp only [get_master_pages]
        rw [gmLoop_none_join rs r.results r.hasMore ?_ hrs]
        · simp
        · intro hne
          rcases hr with hr | hr
          · exact absurd (List.isEmpty_iff.mp hr) hne
          · exact hr
  · intro q qs pages hlt hge
    constructor
    · simp only [gmLoop]
      rw [if_pos hlt, if_pos hge]
    · simp only [List.length_take]
      omega
  · intro limit hall p hp
    cases responses with
    | nil => simp [get_master_pages] at hp
    | cons r rs =>
        exact gmLoop_filter eligibleFilter rs limit r.results r.hasMore
          (hall r (List.mem_cons_self r rs)) (fun s hs => hall s (List.mem_cons_of_mem r hs))
          p hp

/-- Witness for C6 (amended) on a concrete two-response sequence of
eligible pages, and a concrete mid-loop truncation. -/
theorem c6_witness :
    (get_master_pages [⟨[ePage "e1"], true⟩, ⟨[ePage "e2"], false⟩] (Option.some 5)).length ≤ 5 ∧
    get_master_pages [⟨[ePage "e1"], true⟩, ⟨[ePage "e2"], false⟩] Option.none =
      [ePage "e1", ePage "e2"] ∧
    gmLoop (Option.some 1) [] true [⟨[ePage "a", ePage "b"], false⟩] = [ePage "a"] ∧
    eligibleFilter (ePage "e1") = true := by
  have h := c6_amended_cap_and_accumulation [⟨[ePage "e1"], true⟩, ⟨[ePage "e2"], false⟩] 5
  have h1 := c6_amended_cap_and_accumulation [] 1
  refine ⟨h.1 (by decide), ?_, ?_, ?_⟩
  · rw [h.2.1 (by decide)]
    rfl
  · rw [(h1.2.2.1 ⟨[ePage "a", ePage "b"], false⟩ [] [] (by decide) (by decide)).1]
    rfl
  · exact h.2.2.2 Option.none (by decide) (ePage "e1") (by decide)

end NotionDbSync
